import Mathlib

/-!
# talos-kms-proxy: certificate lifecycle and KMS pass-through

A shallow embedding of `internal/acme` (acme.go, state.go), `internal/kms`
(kms.go, api.go) and `internal/aws` (aws.go).

Conventions of the embedding

* Go `[]byte` is a list of bytes; a nil slice and an empty slice are both `[]`.
* Go `map[string][]byte` is an association list; a nil map is `[]`, and reading
  a missing key yields the nil slice, as in Go.
* Go `error` values are `Option GoError` (`none` is `nil`).
* The file system is a function from paths to file states.  What a write does
  (succeeds, fails before touching the file, fails after a short write) is an
  input of the operation, since it is decided by the operating system.
* Results of network calls and of the random generator are inputs as well.
* Deterministic library functions (encoding/json, crypto/x509, crypto/tls) are
  fields of `Lib`.
* A Go panic is the outcome `crashed`.
-/

namespace TalosKmsProxy

/-! ## Basic data -/

abbrev Bytes := List (Fin 256)

/-- Go error values that the program can see.  `errNotExist` is a `*PathError`
whose cause is `ENOENT`; `errOther` is a `*PathError` with any other cause;
`awsErr` is an SDK `awserr.Error`, carrying the text its `Error` method
returns. -/
inductive GoError where
  | errNotExist (path : String)
  | errOther (path : String)
  | errNoARI
  | awsErr (text : String)
  | message (msg : String)
  | wrapped (msg : String) (inner : GoError)
deriving DecidableEq, Repr

/-- The test `errors.Is(err, os.ErrNotExist)`: follows the `%w` chain. -/
def GoError.isNotExist : GoError → Bool
  | .errNotExist _ => true
  | .wrapped _ e => e.isNotExist
  | _ => false

/-- The test `errors.Is(err, api.ErrNoARI)`. -/
def GoError.isNoARI : GoError → Bool
  | .errNoARI => true
  | .wrapped _ e => e.isNoARI
  | _ => false

/-! ## File system -/

inductive FileState where
  | absent
  | unreadable
  | file (content : Bytes)
deriving DecidableEq, Repr

abbrev FS := String → FileState

/-- The call `os.ReadFile(path)`. -/
def readFile (fs : FS) (path : String) : Except GoError Bytes :=
  match fs path with
  | .absent => .error (.errNotExist path)
  | .unreadable => .error (.errOther path)
  | .file c => .ok c

/-- What the operating system does with one `os.WriteFile` call. -/
inductive WriteOutcome where
  | ok
  | failOpen (e : GoError)
  | failShort (e : GoError) (written : Nat)
deriving DecidableEq, Repr

def FS.set (fs : FS) (path : String) (st : FileState) : FS :=
  fun p => if p = path then st else fs p

/-- The call `os.WriteFile(path, data, 0600)`: open with create and truncate,
write, close. -/
def writeFile (fs : FS) (path : String) (data : Bytes) : WriteOutcome → FS × Option GoError
  | .ok => (fs.set path (.file data), none)
  | .failOpen e => (fs, some e)
  | .failShort e n => (fs.set path (.file (data.take n)), some e)

/-! ## Byte maps (`map[string][]byte`) -/

abbrev CertsMap := List (String × Bytes)

/-- Read `m[k]`; a missing key (and any key of the nil map) gives the nil slice. -/
def CertsMap.get (m : CertsMap) (k : String) : Bytes :=
  match m with
  | [] => []
  | (k1, v) :: rest => if k1 = k then v else CertsMap.get rest k

/-- Assign `m[k] = v`. -/
def CertsMap.put (m : CertsMap) (k : String) (v : Bytes) : CertsMap :=
  match m with
  | [] => [(k, v)]
  | (k1, v1) :: rest => if k1 = k then (k, v) :: rest else (k1, v1) :: CertsMap.put rest k v

/-! ## ACME data model -/

structure ECPrivateKey where
  d : Nat
deriving DecidableEq, Repr

/-- The lego `registration.Resource`. -/
structure Registration where
  uri : String
  body : Bytes
deriving DecidableEq, Repr

/-- The Go struct `AcmeUser`. -/
structure AcmeUser where
  email : String := ""
  registration : Option Registration := none
  key : Option ECPrivateKey := none
  pkb : Bytes := []
deriving DecidableEq, Repr

/-- The lego `certificate.Resource`. -/
structure Resource where
  domain : String
  certURL : String
  certStableURL : String
  privateKey : Bytes
  certificate : Bytes
  issuerCertificate : Bytes
  csr : Bytes
deriving DecidableEq, Repr

/-- What `tls.X509KeyPair` returns on success. -/
structure TLSCertificate where
  chain : List Bytes
  privateKey : Bytes
  leaf : Option Bytes
deriving DecidableEq, Repr

structure LegoClient where
  caDirURL : String
  keyType : String
deriving DecidableEq, Repr

/-- The runtime timer behind `a.timer`: `armed` is false once the channel value
has been received and before the next `Reset`. -/
structure Timer where
  deadline : Int
  armed : Bool
deriving DecidableEq, Repr

/-- The Go struct `Acme` (the channel lives in `World`). -/
structure Acme where
  domains : List String
  email : String
  dev : Bool
  workdir : String
  client : Option LegoClient := none
  certs : CertsMap := []
  user : AcmeUser := {}
  timer : Option Timer := none
deriving DecidableEq, Repr

/-- Deterministic library functions used by the program. -/
structure Lib where
  jsonUnmarshalUser : Bytes → AcmeUser → AcmeUser × Option GoError
  jsonMarshalUser : AcmeUser → Except GoError Bytes
  jsonMarshalResource : Resource → Except GoError Bytes
  parseECPrivateKey : Bytes → Except GoError ECPrivateKey
  marshalECPrivateKey : ECPrivateKey → Except GoError Bytes
  x509KeyPair : Bytes → Bytes → Except GoError TLSCertificate

/-- Observable actions, in program order. -/
inductive Event where
  | generateKey
  | register
  | obtain (domains : List String)
  | send (bundle : CertsMap)
  | mkdirAll (path : String)
  | write (path : String) (data : Bytes) (o : WriteOutcome)
  | getRenewalInfo
  | timerReset (deadline : Int)
deriving DecidableEq, Repr

structure World where
  fs : FS
  trace : List Event := []

def World.emit (w : World) (e : Event) : World :=
  { w with trace := w.trace ++ [e] }

/-- Bundles sent on the hand-off channel so far, oldest first. -/
def sentBundles : List Event → List CertsMap
  | [] => []
  | .send b :: rest => b :: sentBundles rest
  | _ :: rest => sentBundles rest

/-- Paths of the files written so far. -/
def writtenPaths : List Event → List String
  | [] => []
  | .write p _ _ :: rest => p :: writtenPaths rest
  | _ :: rest => writtenPaths rest

def countRegister : List Event → Nat
  | [] => 0
  | .register :: rest => countRegister rest + 1
  | _ :: rest => countRegister rest

def countObtain : List Event → Nat
  | [] => 0
  | .obtain _ :: rest => countObtain rest + 1
  | _ :: rest => countObtain rest

/-- Function `New` of acme.go. -/
def New (domains : List String) (email dir : String) (dev : Bool) : Acme :=
  { domains := domains, email := email, dev := dev, workdir := dir, user := {} }

def statePath (a : Acme) : String := a.workdir ++ "/state.json"
def certPath (a : Acme) : String := a.workdir ++ "/certs/cert.pem"
def keyPath (a : Acme) : String := a.workdir ++ "/certs/key.pem"
def certsDir (a : Acme) : String := a.workdir ++ "/certs"

/-! ## state.go -/

/-- Method `createLegoClient`: `netResult` is the outcome of `lego.NewClient`. -/
def Acme.createLegoClient (a : Acme) (netResult : Option GoError) : Except GoError LegoClient :=
  let url := if a.dev then "https://acme-staging-v02.api.letsencrypt.org/directory"
             else "https://acme-v02.api.letsencrypt.org/directory"
  match netResult with
  | some e => .error e
  | none => .ok { caDirURL := url, keyType := "P256" }

/-- Method `loadCerts` of state.go. -/
def Acme.loadCerts (a : Acme) (fs : FS) : Acme × Option GoError :=
  let certs : CertsMap := []
  match readFile fs (certPath a) with
  | .error e => (a, some e)
  | .ok crt =>
    let certs := certs.put "certificate" crt
    match readFile fs (keyPath a) with
    | .error e => (a, some e)
    | .ok pk =>
      let certs := certs.put "privatekey" pk
      ({ a with certs := certs }, none)

/-- Method `restore` of state.go. -/
def Acme.restore (lib : Lib) (clientResult : Option GoError) (a : Acme) (fs : FS) :
    Acme × Option GoError :=
  match readFile fs (statePath a) with
  | .error e => (a, some e)
  | .ok state =>
    match lib.jsonUnmarshalUser state a.user with
    | (u, some e) => ({ a with user := u }, some e)
    | (u, none) =>
      match lib.parseECPrivateKey u.pkb with
      | .error e => ({ a with user := u }, some e)
      | .ok pk =>
        let a1 : Acme := { a with user := { u with key := some pk } }
        match a1.loadCerts fs with
        | (a2, some e) => (a2, some e)
        | (a2, none) =>
          match a2.createLegoClient clientResult with
          | .error e => (a2, some e)
          | .ok c => ({ a2 with client := some c }, none)

/-- Operating-system outcomes of the calls made by one `writeCerts`. -/
structure WriteCertsEnv where
  mkdir : Option GoError
  metaOutcome : WriteOutcome
  certOutcome : WriteOutcome
  keyOutcome : WriteOutcome
deriving DecidableEq, Repr

/-- Result of a method that may return an error or panic. -/
inductive Outcome where
  | ok
  | err (e : GoError)
  | crashed
deriving DecidableEq, Repr

/-- Method `writeCerts` of state.go.  Failures of `MkdirAll`, of `json.Marshal`
and of the metadata write are logged only; `a.domains[0]` panics on an empty
domain list. -/
def Acme.writeCerts (lib : Lib) (env : WriteCertsEnv) (a : Acme) (w : World)
    (certificates : Resource) : World × Outcome :=
  let w := w.emit (.mkdirAll (certsDir a))
  let cmd : Bytes := match lib.jsonMarshalResource certificates with
    | .ok b => b
    | .error _ => []
  match a.domains with
  | [] => (w, .crashed)
  | d0 :: _ =>
    let p := a.workdir ++ "/certs/" ++ d0
    let w := { (w.emit (.write p cmd env.metaOutcome)) with
               fs := (writeFile w.fs p cmd env.metaOutcome).1 }
    let r1 := writeFile w.fs (certPath a) certificates.certificate env.certOutcome
    let w := { (w.emit (.write (certPath a) certificates.certificate env.certOutcome)) with
               fs := r1.1 }
    match r1.2 with
    | some e => (w, .err e)
    | none =>
      let r2 := writeFile w.fs (keyPath a) certificates.privateKey env.keyOutcome
      let w := { (w.emit (.write (keyPath a) certificates.privateKey env.keyOutcome)) with
                 fs := r2.1 }
      match r2.2 with
      | some e => (w, .err e)
      | none => (w, .ok)

/-- Method `writeState` of state.go. -/
def Acme.writeState (lib : Lib) (o : WriteOutcome) (a : Acme) (w : World) :
    World × Option GoError :=
  match lib.jsonMarshalUser a.user with
  | .error e => (w, some e)
  | .ok state =>
    let r := writeFile w.fs (statePath a) state o
    ({ (w.emit (.write (statePath a) state o)) with fs := r.1 }, r.2)

/-! ## Time -/

def maxInt64 : Int := 2 ^ 63 - 1
def minInt64 : Int := -(2 ^ 63)

/-- Go `5 * time.Minute`, in nanoseconds. -/
def fiveMinutes : Int := 5 * 60 * 1000000000

/-- The instant of the zero `time.Time` (1 January of year 1, UTC), in
nanoseconds relative to the Unix epoch. -/
def zeroTime : Int := -62135596800 * 1000000000

/-- The call `time.Until(t)` made at instant `now`: `t.Sub(now)`, which saturates
at the bounds of `time.Duration`. -/
def timeUntil (now t : Int) : Int :=
  if t - now > maxInt64 then maxInt64
  else if t - now < minInt64 then minInt64
  else t - now

/-- Deadline the runtime gives a timer started or reset at `now` with duration
`d`: a non-positive duration means the timer is due at once. -/
def timerWhen (now d : Int) : Int :=
  if d ≤ 0 then now
  else if now + d > maxInt64 then maxInt64
  else now + d

/-! ## acme.go -/

/-- Outcomes of the external calls made by one `initLego`. -/
structure InitEnv where
  genKey : Except GoError ECPrivateKey
  clientResult : Option GoError
  register : Except GoError Registration
  stateOutcome : WriteOutcome

/-- Method `initLego` of acme.go. -/
def Acme.initLego (lib : Lib) (env : InitEnv) (a : Acme) (w : World) :
    Acme × World × Option GoError :=
  let w := w.emit .generateKey
  match env.genKey with
  | .error e => (a, w, some e)
  | .ok privateKey =>
    match lib.marshalECPrivateKey privateKey with
    | .error e => (a, w, some e)
    | .ok pkb =>
      let user : AcmeUser := { email := a.email, key := some privateKey, pkb := pkb }
      let a := { a with user := user }
      match a.createLegoClient env.clientResult with
      | .error e => (a, w, some e)
      | .ok client =>
        let a := { a with client := some client }
        let w := w.emit .register
        match env.register with
        | .error e => (a, w, some e)
        | .ok reg =>
          let a := { a with user := { a.user with registration := some reg } }
          match a.writeState lib env.stateOutcome w with
          | (w, some e) => (a, w, some e)
          | (w, none) => (a, w, none)

/-- Outcomes of the external calls made by one `createCertificate`. -/
structure CreateEnv where
  provider : Option GoError
  setProvider : Option GoError
  obtain : Except GoError Resource
  writes : WriteCertsEnv

/-- The map literal built by `createCertificate`. -/
def bundleOf (r : Resource) : CertsMap :=
  [("certificate", r.certificate), ("privatekey", r.privateKey)]

/-- Method `createCertificate` of acme.go.  The send on the unbuffered channel is
taken to complete (the receiver loop is waiting on the other end). -/
def Acme.createCertificate (lib : Lib) (env : CreateEnv) (a : Acme) (w : World) :
    Acme × World × Outcome :=
  match env.provider with
  | some e => (a, w, .err e)
  | none =>
    match a.client with
    | none => (a, w, .crashed)
    | some _ =>
      match env.setProvider with
      | some e => (a, w, .err e)
      | none =>
        let w := w.emit (.obtain a.domains)
        match env.obtain with
        | .error e => (a, w, .err e)
        | .ok certificates =>
          let certsMap := bundleOf certificates
          let w := w.emit (.send certsMap)
          let a := { a with certs := certsMap }
          match a.writeCerts lib env.writes w certificates with
          | (w, .err e) => (a, w, .err e)
          | (w, .crashed) => (a, w, .crashed)
          | (w, .ok) => (a, w, .ok)

/-- The lego `RenewalInfoResponse`, reduced to the fields the program reads. -/
structure RenewalInfoResponse where
  windowStart : Int
  windowEnd : Int
deriving DecidableEq, Repr

/-- The pair returned by `GetRenewalInfo`: a pointer that may be nil and an
error that may be nil. -/
structure RenewalQuery where
  resp : Option RenewalInfoResponse
  err : Option GoError
deriving DecidableEq, Repr

/-- Method `renewCertificate` of acme.go, run at instant `now`; `query` is the
answer of `GetRenewalInfo` for the leaf it is given.  A failed `X509KeyPair`
and a failed query are logged only; the nil `a.client`, the nil `renewalInfo`
and the nil `a.timer` are dereferenced, which panics. -/
def Acme.renewCertificate (lib : Lib) (now : Int) (query : Option Bytes → RenewalQuery)
    (a : Acme) (w : World) : Acme × World × Outcome :=
  let leaf : Option Bytes :=
    match lib.x509KeyPair (a.certs.get "certificate") (a.certs.get "privatekey") with
    | .ok cert => cert.leaf
    | .error _ => none
  match a.client with
  | none => (a, w, .crashed)
  | some _ =>
    let w := w.emit .getRenewalInfo
    match (query leaf).resp with
    | none => (a, w, .crashed)
    | some info =>
      let renew := info.windowStart
      match a.timer with
      | none => (a, w, .crashed)
      | some _ =>
        let deadline := timerWhen now (timeUntil now renew)
        ({ a with timer := some { deadline := deadline, armed := true } },
         w.emit (.timerReset deadline), .ok)

/-- One step of the environment seen by the loop of `Serve`: the context is
cancelled, the timer channel delivers at instant `now`, or one spawned
`renewCertificate` goroutine runs at instant `now`. -/
inductive LoopEvent where
  | ctxDone
  | timerFires (now : Int) (env : CreateEnv)
  | renewRuns (now : Int) (query : Option Bytes → RenewalQuery)

/-- How `Serve` stands after the events given to it. -/
inductive ServeStatus where
  | running
  | returned (err : Option GoError)
  | crashed
deriving DecidableEq, Repr

/-- The `for`/`select` loop of `Serve`.  `pending` counts the spawned
`renewCertificate` goroutines that have not run yet.  An event that is not
enabled (the timer is not due, no goroutine is pending) is skipped. -/
def Acme.serveLoop (lib : Lib) : List LoopEvent → Nat → Acme → World →
    Acme × World × ServeStatus
  | [], _, a, w => (a, w, .running)
  | .ctxDone :: _, _, a, w => (a, w, .returned none)
  | .timerFires now env :: rest, pending, a, w =>
    match a.timer with
    | none => Acme.serveLoop lib rest pending a w
    | some t =>
      if t.armed = true ∧ t.deadline ≤ now then
        let a := { a with timer := some { t with armed := false } }
        match a.createCertificate lib env w with
        | (a, w, .err e) => (a, w, .returned (some e))
        | (a, w, .crashed) => (a, w, .crashed)
        | (a, w, .ok) => Acme.serveLoop lib rest (pending + 1) a w
      else Acme.serveLoop lib rest pending a w
  | .renewRuns now q :: rest, pending, a, w =>
    match pending with
    | 0 => Acme.serveLoop lib rest 0 a w
    | n + 1 =>
      match a.renewCertificate lib now q w with
      | (a, w, .ok) => Acme.serveLoop lib rest n a w
      | (a, w, _) => (a, w, .crashed)

/-- Inputs of one run of `Serve`. -/
structure ServeEnv where
  restoreClient : Option GoError
  init : InitEnv
  first : CreateEnv
  now0 : Int
  events : List LoopEvent

/-- Method `Serve` of acme.go. -/
def Acme.Serve (lib : Lib) (env : ServeEnv) (a : Acme) (w : World) :
    Acme × World × ServeStatus :=
  let start (a : Acme) (w : World) : Acme × World × ServeStatus :=
    let d := timeUntil env.now0 (env.now0 + fiveMinutes)
    let a := { a with timer := some { deadline := timerWhen env.now0 d, armed := true } }
    Acme.serveLoop lib env.events 1 a w
  match a.restore lib env.restoreClient w.fs with
  | (a, none) => start a w
  | (a, some err) =>
    if err.isNotExist then
      match a.initLego lib env.init w with
      | (a, w, some e) => (a, w, .returned (some e))
      | (a, w, none) =>
        match a.createCertificate lib env.first w with
        | (a, w, .err e) => (a, w, .returned (some e))
        | (a, w, .crashed) => (a, w, .crashed)
        | (a, w, .ok) => start a w
    else (a, w, .returned (some err))

/-! ## aws.go -/

/-- Go `string`: an immutable sequence of arbitrary bytes. -/
structure GoString where
  bytes : Bytes
deriving DecidableEq, Repr

/-- The conversion `string(b)`. -/
def stringOfBytes (b : Bytes) : GoString := ⟨b⟩

/-- The conversion `[]byte(s)`. -/
def bytesOfString (s : GoString) : Bytes := s.bytes

/-- The SDK `EncryptInput`, reduced to the fields a caller can set here. -/
structure EncryptInput where
  keyId : Option String
  plaintext : Bytes
deriving DecidableEq, Repr

structure EncryptOutput where
  ciphertextBlob : Bytes
  keyId : Option String
deriving DecidableEq, Repr

/-- The SDK `DecryptInput`, reduced to the fields a caller can set here. -/
structure DecryptInput where
  keyId : Option String
  ciphertextBlob : Bytes
deriving DecidableEq, Repr

structure DecryptOutput where
  plaintext : Bytes
  keyId : Option String
deriving DecidableEq, Repr

/-- The remote key-management service, as seen through `a.Svc`. -/
structure KMSService where
  encrypt : EncryptInput → Except GoError EncryptOutput
  decrypt : DecryptInput → Except GoError DecryptOutput
  describeKey : Option String → Option GoError

/-- The Go struct `AWS` (the service handle is passed separately). -/
structure AWS where
  keyID : String
deriving DecidableEq, Repr

/-- Function `NewAWS`: `KeyID` starts as the empty string. -/
def NewAWS : AWS := { keyID := "" }

/-- The request literal built by `EncryptData`. -/
def AWS.encryptRequest (a : AWS) (data : GoString) : EncryptInput :=
  { keyId := some a.keyID, plaintext := bytesOfString data }

/-- The request literal built by `DecryptData`. -/
def AWS.decryptRequest (_a : AWS) (data : GoString) : DecryptInput :=
  { keyId := none, ciphertextBlob := bytesOfString data }

/-- Method `EncryptData` of aws.go. -/
def AWS.EncryptData (a : AWS) (svc : KMSService) (data : GoString) :
    Except GoError EncryptOutput :=
  match svc.encrypt (a.encryptRequest data) with
  | .error err => .error (.wrapped "could not encrypt data" err)
  | .ok result => .ok result

/-- Method `DecryptData` of aws.go. -/
def AWS.DecryptData (a : AWS) (svc : KMSService) (data : GoString) :
    Except GoError DecryptOutput :=
  match svc.decrypt (a.decryptRequest data) with
  | .error err => .error (.wrapped "could not decrypt data" err)
  | .ok result => .ok result

/-- Method `CheckKeyExists` of aws.go: an SDK error is flattened to its text, any
other error is wrapped. -/
def AWS.CheckKeyExists (a : AWS) (svc : KMSService) : Option GoError :=
  match svc.describeKey (some a.keyID) with
  | some (.awsErr text) => some (.message text)
  | some err => some (.wrapped "could not check key" err)
  | none => none

/-! ## kms.go and api.go -/

/-- The Go struct `Server`. -/
structure Server where
  awscli : AWS
  certs : CertsMap := []
  workdir : String
  endpoint : String
deriving DecidableEq, Repr

/-- Function `NewServer`: `getenv` is the process environment, `session` the
outcome of `session.NewSession`. -/
def NewServer (getenv : String → String) (session : Option GoError) (svc : KMSService)
    (endpoint workdir : String) : Except GoError Server :=
  let keyID := getenv "AWS_KMS_KEY_ID"
  match session with
  | some err => .error err
  | none =>
    let awscli := { NewAWS with keyID := keyID }
    match awscli.CheckKeyExists svc with
    | some err => .error err
    | none => .ok { awscli := awscli, endpoint := endpoint, workdir := workdir }

/-- Method `loadCerts` of kms.go.  Only the not-exist error ends the method; with
any other read error the method goes on with the nil slice it was given. -/
def Server.loadCerts (srv : Server) (fs : FS) : Server × Option GoError :=
  let certs : CertsMap := []
  let r1 := readFile fs (srv.workdir ++ "/certs/cert.pem")
  let notExist1 := match r1 with
    | .error e => e.isNotExist
    | .ok _ => false
  if notExist1 then (srv, none)
  else
    let crt : Bytes := match r1 with
      | .ok b => b
      | .error _ => []
    let certs := certs.put "certificate" crt
    let r2 := readFile fs (srv.workdir ++ "/certs/key.pem")
    let notExist2 := match r2 with
      | .error e => e.isNotExist
      | .ok _ => false
    if notExist2 then (srv, none)
    else
      let pk : Bytes := match r2 with
        | .ok b => b
        | .error _ => []
      let certs := certs.put "privatekey" pk
      ({ srv with certs := certs }, none)

/-- Method `getCerts` of kms.go (the hello argument is not read). -/
def Server.getCerts (lib : Lib) (srv : Server) : Except GoError TLSCertificate :=
  match lib.x509KeyPair (srv.certs.get "certificate") (srv.certs.get "privatekey") with
  | .error err => .error err
  | .ok cert => .ok cert

/-- One step of the environment seen by `Server.Serve` after start-up: the
context is cancelled, a bundle arrives on the channel, or the listener asks
for the certificate of a new connection. -/
inductive SrvEvent where
  | ctxDone
  | recv (bundle : CertsMap)
  | hello
deriving DecidableEq, Repr

/-- The `for`/`select` loop of `Server.Serve` interleaved with the handshake
callbacks of the listener; the results of the callbacks are collected, oldest
first.  The flag tells whether the loop has returned. -/
def Server.serveLoop (lib : Lib) : List SrvEvent → Server →
    Server × List (Except GoError TLSCertificate) × Bool
  | [], srv => (srv, [], false)
  | .ctxDone :: _, srv => (srv, [], true)
  | .recv bundle :: rest, srv => Server.serveLoop lib rest { srv with certs := bundle }
  | .hello :: rest, srv =>
    let r := Server.serveLoop lib rest srv
    (r.1, srv.getCerts lib :: r.2.1, r.2.2)

/-- Method `Serve` of kms.go. -/
def Server.Serve (lib : Lib) (events : List SrvEvent) (srv : Server) (fs : FS) :
    Server × List (Except GoError TLSCertificate) × Option (Option GoError) :=
  match srv.loadCerts fs with
  | (srv, some err) => (srv, [], some (some (.wrapped "could not load existing certs" err)))
  | (srv, none) =>
    let r := Server.serveLoop lib events srv
    (r.1, r.2.1, if r.2.2 then some none else none)

/-- The wire message `kms.Request`. -/
structure Request where
  nodeUuid : String
  data : Bytes
deriving DecidableEq, Repr

/-- The wire message `kms.Response`. -/
structure Response where
  data : Bytes
deriving DecidableEq, Repr

/-- Method `Seal` of api.go. -/
def Server.Seal (srv : Server) (svc : KMSService) (req : Request) : Except GoError Response :=
  match srv.awscli.EncryptData svc (stringOfBytes req.data) with
  | .error err => .error err
  | .ok encdata => .ok { data := encdata.ciphertextBlob }

/-- Method `Unseal` of api.go. -/
def Server.Unseal (srv : Server) (svc : KMSService) (req : Request) : Except GoError Response :=
  match srv.awscli.DecryptData svc (stringOfBytes req.data) with
  | .error err => .error err
  | .ok data => .ok { data := data.plaintext }

/-! ## Concrete inputs used to run the definitions -/

/-- A small stand-in for the library functions: the state file holds the key
bytes, a key parses when it is not empty, and a certificate matches a key when
both are non-empty and start with the same byte. -/
def demoLib : Lib where
  jsonUnmarshalUser := fun b u =>
    if b = [] then (u, some (.message "unexpected end of JSON input"))
    else ({ u with email := "ops@example.com", registration := some ⟨"acct/1", []⟩, pkb := b },
          none)
  jsonMarshalUser := fun u => .ok u.pkb
  jsonMarshalResource := fun r => .ok r.certificate
  parseECPrivateKey := fun b =>
    if b = [] then .error (.message "x509: failed to parse EC private key")
    else .ok ⟨b.length⟩
  marshalECPrivateKey := fun k => .ok (List.replicate k.d 7)
  x509KeyPair := fun c k =>
    if c = [] then .error (.message "tls: failed to find any PEM data in certificate input")
    else if k = [] then .error (.message "tls: failed to find any PEM data in key input")
    else if c.head? = k.head? then .ok { chain := [c], privateKey := k, leaf := some c }
    else .error (.message "tls: private key does not match public key")

def demoAcme : Acme := New ["kms.example.com"] "ops@example.com" "/w" false

/-- An empty working directory. -/
def emptyFS : FS := fun _ => .absent

/-- A working directory that holds a parseable `state.json` and no certificate
files. -/
def stateOnlyFS : FS := emptyFS.set "/w/state.json" (.file [1, 2, 3])

/-- A working directory left by a complete earlier run. -/
def fullFS : FS :=
  ((emptyFS.set "/w/state.json" (.file [1, 2, 3])).set "/w/certs/cert.pem" (.file [10, 11])).set
    "/w/certs/key.pem" (.file [10, 12])

def allWritesOk : WriteCertsEnv :=
  { mkdir := none, metaOutcome := .ok, certOutcome := .ok, keyOutcome := .ok }

def resourceOne : Resource :=
  { domain := "kms.example.com", certURL := "cert/1", certStableURL := "cert/1",
    privateKey := [20, 22], certificate := [20, 21], issuerCertificate := [], csr := [] }

def resourceTwo : Resource :=
  { domain := "kms.example.com", certURL := "cert/2", certStableURL := "cert/2",
    privateKey := [30, 32], certificate := [30, 31], issuerCertificate := [], csr := [] }

def initOk : InitEnv :=
  { genKey := .ok ⟨5⟩, clientResult := none, register := .ok ⟨"acct/2", []⟩,
    stateOutcome := .ok }

def createOk (r : Resource) : CreateEnv :=
  { provider := none, setProvider := none, obtain := .ok r, writes := allWritesOk }

def obtainFails : CreateEnv :=
  { provider := none, setProvider := none,
    obtain := .error (.message "acme: error presenting token"), writes := allWritesOk }

def thirtyDays : Int := 30 * 24 * 3600 * 1000000000

/-- An authority that answers every renewal query with a window starting at
`start`. -/
def windowAt (start : Int) : Option Bytes → RenewalQuery :=
  fun _ => { resp := some { windowStart := start, windowEnd := start + 1 }, err := none }

/-- A run of `Serve` at instant 0 in which every start-up call succeeds. -/
def restoreEnv (events : List LoopEvent) : ServeEnv :=
  { restoreClient := none, init := initOk, first := createOk resourceOne, now0 := 0,
    events := events }

/-- The issuance fails at the provider lookup, at the provider set-up or at
`Obtain`, that is before the send on the channel. -/
def CreateEnv.failsBeforePublish (env : CreateEnv) : Bool :=
  env.provider.isSome || env.setProvider.isSome ||
    match env.obtain with
    | .error _ => true
    | .ok _ => false

/-- A loaded agent whose timer is armed for instant `d`. -/
def servingAcme (d : Int) : Acme :=
  { demoAcme with
    client := some { caDirURL := "https://acme-v02.api.letsencrypt.org/directory",
                     keyType := "P256" },
    certs := [("certificate", [10, 11]), ("privatekey", [10, 12])],
    timer := some { deadline := d, armed := true } }

/-- The answer of an authority without a renewal-information endpoint: the nil
response together with the error. -/
def noARI : Option Bytes → RenewalQuery :=
  fun _ => { resp := none, err := some .errNoARI }

/-- An issuance in which the chain is written and the key write fails at open. -/
def keyWriteFails (r : Resource) : CreateEnv :=
  { provider := none, setProvider := none, obtain := .ok r,
    writes := { mkdir := none, metaOutcome := .ok, certOutcome := .ok,
                keyOutcome := .failOpen (.errOther "/w/certs/key.pem") } }

def demoServer : Server := { awscli := { keyID := "key-1" }, workdir := "/w", endpoint := ":4050" }

/-- The store after a renewal whose chain write succeeded and whose key write
failed at open: the chain of the second issuance next to the key of the
earlier one. -/
def mixedWorld : World :=
  (Acme.createCertificate demoLib (keyWriteFails resourceTwo) (servingAcme 5) { fs := fullFS }).2.1

/-- A working directory with `state.json` and `certs/cert.pem` but no
`certs/key.pem`. -/
def certOnlyFS : FS :=
  (emptyFS.set "/w/state.json" (.file [1, 2, 3])).set "/w/certs/cert.pem" (.file [10, 11])

/-- A key-management service that echoes the payload and reports the key
identifier it was given. -/
def echoService : KMSService :=
  { encrypt := fun inp => .ok { ciphertextBlob := inp.plaintext, keyId := inp.keyId },
    decrypt := fun inp => .ok { plaintext := inp.ciphertextBlob, keyId := inp.keyId },
    describeKey := fun _ => none }

def demoGetenv : String → String :=
  fun name => if name = "AWS_KMS_KEY_ID" then "key-1" else ""

/-- No event of the list is the cancellation of the context. -/
def noCtxDone : List SrvEvent → Bool
  | [] => true
  | .ctxDone :: _ => false
  | _ :: rest => noCtxDone rest

/-- The agent of an earlier run, after its bootstrap: account registered, key
generated, client created. -/
def writerAcme : Acme :=
  { demoAcme with
    client := some { caDirURL := "https://acme-v02.api.letsencrypt.org/directory",
                     keyType := "P256" },
    user := { email := "ops@example.com", registration := some ⟨"acct/1", []⟩,
              key := some ⟨5⟩, pkb := List.replicate 5 7 } }

/-- The store after `writeState` and `writeCerts` of the earlier run, every write
having succeeded. -/
def persistedWorld : World :=
  (writerAcme.writeCerts demoLib allWritesOk
    (writerAcme.writeState demoLib .ok { fs := emptyFS }).1 resourceOne).1

/-- The error of `lego.NewClient` when the directory of the authority cannot be
fetched. -/
def directoryUnreachable : GoError :=
  .message "get directory at 'https://acme-v02.api.letsencrypt.org/directory': i/o timeout"

/-! ## A handshake that runs while the loop of `Server.Serve` receives -/


/-- The assignments `srv.certs = <-srv.certsChannel` made by the loop of
`Server.Serve` for the bundles it receives, oldest first. -/
def Server.receiveAll (srv : Server) : List CertsMap → Server
  | [] => srv
  | b :: rest => Server.receiveAll { srv with certs := b } rest

/-- The two slices that one `getCerts` call hands to `tls.X509KeyPair` when it runs
while the loop of `Server.Serve` is receiving.  Each of the index expressions
`srv.certs["certificate"]` and `srv.certs["privatekey"]` reads the field
`srv.certs` on its own, with no lock and no local copy of the field; Go does not
fix the order of the two reads, so `certFirst` tells which one comes first.
`before` are the bundles assigned before the first read, `between` those
assigned between the two reads.  Each read sees a whole map: the assignment
stores one reference and no map is modified after it was sent. -/
def Server.getCertsReads (srv : Server) (certFirst : Bool) (before between : List CertsMap) :
    Bytes × Bytes :=
  let s1 := srv.receiveAll before
  let s2 := s1.receiveAll between
  if certFirst then (s1.certs.get "certificate", s2.certs.get "privatekey")
  else (s2.certs.get "certificate", s1.certs.get "privatekey")

/-- Method `getCerts` of kms.go, run while the loop is receiving. -/
def Server.getCertsConcurrent (lib : Lib) (srv : Server) (certFirst : Bool)
    (before between : List CertsMap) : Except GoError TLSCertificate :=
  match lib.x509KeyPair (srv.getCertsReads certFirst before between).1
      (srv.getCertsReads certFirst before between).2 with
  | .error err => .error err
  | .ok cert => .ok cert

/-- The chain and the key of `m` are the pair read by the call. -/
def isBundleOf (reads : Bytes × Bytes) (m : CertsMap) : Bool :=
  decide (reads = (m.get "certificate", m.get "privatekey"))

/-! ## Theorems -/

theorem sentBundles_append (l1 l2 : List Event) :
    sentBundles (l1 ++ l2) = sentBundles l1 ++ sentBundles l2 := by
  induction l1 with
  | nil => rfl
  | cons e rest ih => cases e <;> simp [sentBundles, ih]

theorem countObtain_append (l1 l2 : List Event) :
    countObtain (l1 ++ l2) = countObtain l1 + countObtain l2 := by
  induction l1 with
  | nil => simp [countObtain]
  | cons e rest ih => cases e <;> simp [countObtain, ih, Nat.add_right_comm]

/-- C1 (fails on the code): with a parseable `state.json` in the store and no
`certs/cert.pem`, `restore` returns the not-exist error of the certificate read
and `Serve` takes the bootstrap path: it calls `Register` once and overwrites
`state.json` with the new account. -/
theorem serve_bootstraps_over_existing_state :
    stateOnlyFS "/w/state.json" = .file [1, 2, 3] ∧
    (Acme.restore demoLib none demoAcme stateOnlyFS).2 = some (.errNotExist "/w/certs/cert.pem") ∧
    countRegister (Acme.Serve demoLib (restoreEnv []) demoAcme { fs := stateOnlyFS }).2.1.trace = 1 ∧
    (Acme.Serve demoLib (restoreEnv []) demoAcme { fs := stateOnlyFS }).2.1.fs "/w/state.json"
      = .file [7, 7, 7, 7, 7] ∧
    (Acme.Serve demoLib (restoreEnv []) demoAcme { fs := stateOnlyFS }).1.user.registration
      = some ⟨"acct/2", []⟩ := by
  decide

/-- C2 (counterexample): after a successful restore the loop is running; when the
timer then fires and `Obtain` fails, `Serve` returns that error. -/
theorem serve_returns_on_renewal_error :
    (Acme.Serve demoLib (restoreEnv [.renewRuns 1000 (windowAt thirtyDays)]) demoAcme
        { fs := fullFS }).2.2 = .running ∧
    (Acme.Serve demoLib
        (restoreEnv [.renewRuns 1000 (windowAt thirtyDays), .timerFires thirtyDays obtainFails])
        demoAcme { fs := fullFS }).2.2
      = .returned (some (.message "acme: error presenting token")) := by
  decide

theorem createCertificate_err_before_publish (lib : Lib) (env : CreateEnv) (a : Acme) (w : World)
    (h : env.failsBeforePublish = true) :
    (a.createCertificate lib env w).1 = a ∧
    sentBundles (a.createCertificate lib env w).2.1.trace = sentBundles w.trace := by
  unfold Acme.createCertificate
  cases hp : env.provider with
  | some e => simp
  | none =>
    cases hc : a.client with
    | none => simp
    | some c =>
      cases hs : env.setProvider with
      | some e => simp
      | none =>
        cases ho : env.obtain with
        | error e => simp [World.emit, sentBundles_append, sentBundles]
        | ok r => simp [CreateEnv.failsBeforePublish, hp, hs, ho] at h

theorem createCertificate_timer (lib : Lib) (env : CreateEnv) (a : Acme) (w : World) :
    (a.createCertificate lib env w).1.timer = a.timer := by
  unfold Acme.createCertificate
  cases env.provider with
  | some e => rfl
  | none =>
    cases a.client with
    | none => rfl
    | some c =>
      cases env.setProvider with
      | some e => rfl
      | none =>
        cases env.obtain with
        | error e => rfl
        | ok r =>
          simp only
          split <;> rfl

/-- C2 (amended): when the timer fires in the loop of `Serve` and
`createCertificate` fails with an error, `Serve` returns that error and the
timer is left as it was received, not re-armed; when the failure happened
before the publish, `a.certs` and the bundles sent on the channel are
unchanged. -/
theorem serveLoop_renewal_error_returns (lib : Lib) (now : Int) (env : CreateEnv)
    (rest : List LoopEvent) (pending : Nat) (a : Acme) (w : World) (t : Timer) (e : GoError)
    (ht : a.timer = some t) (harmed : t.armed = true) (hdue : t.deadline ≤ now)
    (hfail : (Acme.createCertificate lib env
        { a with timer := some { t with armed := false } } w).2.2 = .err e) :
    (Acme.serveLoop lib (.timerFires now env :: rest) pending a w).2.2 = .returned (some e) ∧
    (Acme.serveLoop lib (.timerFires now env :: rest) pending a w).1.timer
      = some { deadline := t.deadline, armed := false } ∧
    (env.failsBeforePublish = true →
      (Acme.serveLoop lib (.timerFires now env :: rest) pending a w).1.certs = a.certs ∧
      sentBundles (Acme.serveLoop lib (.timerFires now env :: rest) pending a w).2.1.trace
        = sentBundles w.trace) := by
  have hstep : Acme.serveLoop lib (.timerFires now env :: rest) pending a w
      = ((Acme.createCertificate lib env { a with timer := some { t with armed := false } } w).1,
         (Acme.createCertificate lib env { a with timer := some { t with armed := false } } w).2.1,
         .returned (some e)) := by
    simp only [Acme.serveLoop, ht, harmed, hdue, and_self, if_true]
    rcases hc : Acme.createCertificate lib env
      { a with timer := some { t with armed := false } } w with ⟨a1, w1, o⟩
    rw [hc] at hfail
    simp only at hfail
    subst hfail
    rfl
  rw [hstep]
  refine ⟨rfl, ?_, fun hb => ?_⟩
  · exact createCertificate_timer lib env { a with timer := some { t with armed := false } } w
  · have := createCertificate_err_before_publish lib env
      { a with timer := some { t with armed := false } } w hb
    exact ⟨by rw [this.1], this.2⟩

/-- C2 (amended), run on a concrete firing: the timer is due, `Obtain` fails. -/
theorem serveLoop_renewal_error_returns_witness :
    ((servingAcme 5).timer = some { deadline := 5, armed := true } ∧
     ({ deadline := 5, armed := true } : Timer).armed = true ∧
     ({ deadline := 5, armed := true } : Timer).deadline ≤ 10 ∧
     (Acme.createCertificate demoLib obtainFails
        { servingAcme 5 with timer := some { deadline := 5, armed := false } }
        { fs := fullFS }).2.2 = .err (.message "acme: error presenting token")) ∧
    (Acme.serveLoop demoLib [.timerFires 10 obtainFails] 0 (servingAcme 5) { fs := fullFS }).2.2
      = .returned (some (.message "acme: error presenting token")) ∧
    (Acme.serveLoop demoLib [.timerFires 10 obtainFails] 0 (servingAcme 5)
      { fs := fullFS }).1.timer = some { deadline := 5, armed := false } ∧
    (obtainFails.failsBeforePublish = true →
      (Acme.serveLoop demoLib [.timerFires 10 obtainFails] 0 (servingAcme 5)
        { fs := fullFS }).1.certs = (servingAcme 5).certs ∧
      sentBundles (Acme.serveLoop demoLib [.timerFires 10 obtainFails] 0 (servingAcme 5)
        { fs := fullFS }).2.1.trace = sentBundles ({ fs := fullFS } : World).trace) :=
  ⟨by decide,
   serveLoop_renewal_error_returns demoLib 10 obtainFails [] 0 (servingAcme 5) { fs := fullFS }
    { deadline := 5, armed := true } (.message "acme: error presenting token")
    (by decide) (by decide) (by decide) (by decide)⟩

/-- C3 (fails on the code): when `GetRenewalInfo` fails and hands back the nil
response, `renewCertificate` panics on the dereference of that response, for
every agent, instant and error; the timer is not re-armed. -/
theorem renewCertificate_failed_query_panics (lib : Lib) (now : Int) (a : Acme) (w : World)
    (e : GoError) :
    (a.renewCertificate lib now (fun _ => { resp := none, err := some e }) w).2.2 = .crashed ∧
    (a.renewCertificate lib now (fun _ => { resp := none, err := some e }) w).1.timer
      = a.timer := by
  unfold Acme.renewCertificate
  cases a.client <;> simp

/-- Were the failed query to hand back a zero-valued response instead of nil, the
timer would be due at the instant of the call, not five minutes later. -/
theorem renewCertificate_zero_response_due_at_once :
    (Acme.renewCertificate demoLib 1000
      (fun _ => { resp := some { windowStart := zeroTime, windowEnd := zeroTime },
                  err := some .errNoARI })
      (servingAcme 5) { fs := fullFS }).1.timer = some { deadline := 1000, armed := true } := by
  decide

theorem writeCerts_trace (lib : Lib) (env : WriteCertsEnv) (a : Acme) (w : World)
    (res : Resource) :
    ∃ tail, (a.writeCerts lib env w res).1.trace = w.trace ++ tail ∧
      sentBundles tail = [] ∧ countObtain tail = 0 := by
  unfold Acme.writeCerts
  cases hd : a.domains with
  | nil => exact ⟨[.mkdirAll (certsDir a)], by simp [World.emit], rfl, rfl⟩
  | cons d0 ds =>
    simp only [World.emit, List.append_assoc]
    split
    · refine ⟨_, rfl, ?_, ?_⟩ <;> rfl
    · split
      · refine ⟨_, rfl, ?_, ?_⟩ <;> rfl
      · refine ⟨_, rfl, ?_, ?_⟩ <;> rfl

theorem createCertificate_obtain_ok (lib : Lib) (env : CreateEnv) (a : Acme) (w : World)
    (c : LegoClient) (res : Resource)
    (hc : a.client = some c) (hp : env.provider = none) (hs : env.setProvider = none)
    (ho : env.obtain = .ok res) :
    (a.createCertificate lib env w).1 = { a with certs := bundleOf res } ∧
    (a.createCertificate lib env w).2.1
      = (Acme.writeCerts lib env.writes { a with certs := bundleOf res }
          ((w.emit (.obtain a.domains)).emit (.send (bundleOf res))) res).1 := by
  unfold Acme.createCertificate
  simp only [hp, hs, ho]
  cases hcl : a.client with
  | none => rw [hcl] at hc; cases hc
  | some c1 =>
    simp only
    split <;> rename_i h <;> simp [h]

/-- C4 (counterexample): the timer armed at start-up fires at five minutes, while
the window the authority suggests starts at thirty days; `Obtain` is called, the
new bundle is sent on the channel and replaces `a.certs`. -/
theorem serve_issues_before_window_start :
    fiveMinutes < thirtyDays ∧
    countObtain (Acme.Serve demoLib
      (restoreEnv [.timerFires fiveMinutes (createOk resourceTwo),
                   .renewRuns fiveMinutes (windowAt thirtyDays)])
      demoAcme { fs := fullFS }).2.1.trace = 1 ∧
    sentBundles (Acme.Serve demoLib
      (restoreEnv [.timerFires fiveMinutes (createOk resourceTwo),
                   .renewRuns fiveMinutes (windowAt thirtyDays)])
      demoAcme { fs := fullFS }).2.1.trace = [bundleOf resourceTwo] ∧
    (Acme.Serve demoLib
      (restoreEnv [.timerFires fiveMinutes (createOk resourceTwo),
                   .renewRuns fiveMinutes (windowAt thirtyDays)])
      demoAcme { fs := fullFS }).1.certs = bundleOf resourceTwo ∧
    (Acme.Serve demoLib
      (restoreEnv [.timerFires fiveMinutes (createOk resourceTwo),
                   .renewRuns fiveMinutes (windowAt thirtyDays)])
      demoAcme { fs := fullFS }).1.timer = some { deadline := thirtyDays, armed := true } := by
  decide

theorem timerWhen_timeUntil (now start : Int) (h0 : 0 ≤ now) (h1 : start ≤ maxInt64) :
    timerWhen now (timeUntil now start) = max now start := by
  unfold timerWhen timeUntil maxInt64 minInt64
  unfold maxInt64 at h1
  norm_num at h1 ⊢
  split_ifs <;> omega

theorem renewCertificate_no_issue (lib : Lib) (now : Int) (query : Option Bytes → RenewalQuery)
    (a : Acme) (w : World) :
    countObtain (a.renewCertificate lib now query w).2.1.trace = countObtain w.trace ∧
    sentBundles (a.renewCertificate lib now query w).2.1.trace = sentBundles w.trace ∧
    (a.renewCertificate lib now query w).1.certs = a.certs := by
  unfold Acme.renewCertificate
  cases a.client with
  | none => simp
  | some c =>
    simp only
    split
    · simp [World.emit, countObtain_append, sentBundles_append, countObtain, sentBundles]
    · cases a.timer <;>
        simp [World.emit, countObtain_append, sentBundles_append, countObtain, sentBundles]

theorem serveLoop_single_fire (lib : Lib) (now : Int) (env : CreateEnv) (pending : Nat)
    (a : Acme) (w : World) (t : Timer)
    (ht : a.timer = some t) (harmed : t.armed = true) (hdue : t.deadline ≤ now) :
    (Acme.serveLoop lib [.timerFires now env] pending a w).1
      = (Acme.createCertificate lib env { a with timer := some { t with armed := false } } w).1 ∧
    (Acme.serveLoop lib [.timerFires now env] pending a w).2.1
      = (Acme.createCertificate lib env { a with timer := some { t with armed := false } } w).2.1 := by
  simp only [Acme.serveLoop, ht, harmed, hdue, and_self, if_true]
  rcases hc : Acme.createCertificate lib env
    { a with timer := some { t with armed := false } } w with ⟨a1, w1, o⟩
  cases o <;> simp

theorem createCertificate_calls_obtain (lib : Lib) (env : CreateEnv) (a : Acme) (w : World)
    (c : LegoClient) (hc : a.client = some c) (hp : env.provider = none)
    (hs : env.setProvider = none) :
    countObtain (a.createCertificate lib env w).2.1.trace = countObtain w.trace + 1 := by
  cases ho : env.obtain with
  | error e =>
    unfold Acme.createCertificate
    simp [hc, hp, hs, ho, World.emit, countObtain_append, countObtain]
  | ok res =>
    rw [(createCertificate_obtain_ok lib env a w c res hc hp hs ho).2]
    obtain ⟨tail, h1, _, h3⟩ := writeCerts_trace lib env.writes { a with certs := bundleOf res }
      ((w.emit (.obtain a.domains)).emit (.send (bundleOf res))) res
    rw [h1]
    simp [World.emit, countObtain_append, countObtain, h3]

theorem createCertificate_sends (lib : Lib) (env : CreateEnv) (a : Acme) (w : World)
    (c : LegoClient) (res : Resource) (hc : a.client = some c) (hp : env.provider = none)
    (hs : env.setProvider = none) (ho : env.obtain = .ok res) :
    sentBundles (a.createCertificate lib env w).2.1.trace
      = sentBundles w.trace ++ [bundleOf res] := by
  rw [(createCertificate_obtain_ok lib env a w c res hc hp hs ho).2]
  obtain ⟨tail, h1, h2, _⟩ := writeCerts_trace lib env.writes { a with certs := bundleOf res }
    ((w.emit (.obtain a.domains)).emit (.send (bundleOf res))) res
  rw [h1]
  simp [World.emit, sentBundles_append, sentBundles, h2]

/-- C4 (amended): a timer firing handled by the loop of `Serve` runs
`createCertificate` without consulting the renewal window: once the provider is
set up `Obtain` is called, and when it succeeds the new bundle is sent and
becomes `a.certs`.  `renewCertificate` never calls `Obtain`, sends nothing and
leaves `a.certs` unchanged; when the query hands back a response it re-arms the
timer for the suggested window start, or for the instant of the call when that
start is not later. -/
theorem timer_fire_issues_renew_only_rearms (lib : Lib) (now now2 : Int) (env : CreateEnv)
    (query : Option Bytes → RenewalQuery) (pending : Nat) (a : Acme) (w : World) (t : Timer)
    (c : LegoClient)
    (ht : a.timer = some t) (harmed : t.armed = true) (hdue : t.deadline ≤ now)
    (hc : a.client = some c) (hp : env.provider = none) (hs : env.setProvider = none) :
    countObtain (Acme.serveLoop lib [.timerFires now env] pending a w).2.1.trace
      = countObtain w.trace + 1 ∧
    (∀ res, env.obtain = .ok res →
      sentBundles (Acme.serveLoop lib [.timerFires now env] pending a w).2.1.trace
        = sentBundles w.trace ++ [bundleOf res] ∧
      (Acme.serveLoop lib [.timerFires now env] pending a w).1.certs = bundleOf res) ∧
    countObtain (a.renewCertificate lib now2 query w).2.1.trace = countObtain w.trace ∧
    sentBundles (a.renewCertificate lib now2 query w).2.1.trace = sentBundles w.trace ∧
    (a.renewCertificate lib now2 query w).1.certs = a.certs ∧
    (∀ info, (∀ leaf, (query leaf).resp = some info) →
      (a.renewCertificate lib now2 query w).2.2 = .ok ∧
      (a.renewCertificate lib now2 query w).1.timer
        = some { deadline := timerWhen now2 (timeUntil now2 info.windowStart), armed := true } ∧
      (0 ≤ now2 → info.windowStart ≤ maxInt64 →
        timerWhen now2 (timeUntil now2 info.windowStart) = max now2 info.windowStart)) := by
  have hfire := serveLoop_single_fire lib now env pending a w t ht harmed hdue
  have hno := renewCertificate_no_issue lib now2 query a w
  refine ⟨?_, ?_, hno.1, hno.2.1, hno.2.2, ?_⟩
  · rw [hfire.2]
    exact createCertificate_calls_obtain lib env
      { a with timer := some { t with armed := false } } w c hc hp hs
  · intro res ho
    rw [hfire.1, hfire.2]
    refine ⟨createCertificate_sends lib env
      { a with timer := some { t with armed := false } } w c res hc hp hs ho, ?_⟩
    rw [(createCertificate_obtain_ok lib env
      { a with timer := some { t with armed := false } } w c res hc hp hs ho).1]
  · intro info hq
    refine ⟨?_, ?_, timerWhen_timeUntil now2 info.windowStart⟩
    · unfold Acme.renewCertificate
      simp [hc, ht, hq]
    · unfold Acme.renewCertificate
      simp [hc, ht, hq]

/-- C4 (amended), run on a concrete firing and a concrete query. -/
theorem timer_fire_issues_renew_only_rearms_witness :
    ((servingAcme 5).timer = some { deadline := 5, armed := true } ∧
     ({ deadline := 5, armed := true } : Timer).armed = true ∧
     ({ deadline := 5, armed := true } : Timer).deadline ≤ 10 ∧
     (servingAcme 5).client
       = some { caDirURL := "https://acme-v02.api.letsencrypt.org/directory", keyType := "P256" } ∧
     (createOk resourceTwo).provider = none ∧ (createOk resourceTwo).setProvider = none) ∧
    countObtain (Acme.serveLoop demoLib [.timerFires 10 (createOk resourceTwo)] 0 (servingAcme 5)
      { fs := fullFS }).2.1.trace = countObtain ({ fs := fullFS } : World).trace + 1 ∧
    (Acme.renewCertificate demoLib 20 (windowAt thirtyDays) (servingAcme 5)
      { fs := fullFS }).1.certs = (servingAcme 5).certs :=
  have h := timer_fire_issues_renew_only_rearms demoLib 10 20 (createOk resourceTwo)
    (windowAt thirtyDays) 0 (servingAcme 5) { fs := fullFS } { deadline := 5, armed := true }
    { caDirURL := "https://acme-v02.api.letsencrypt.org/directory", keyType := "P256" }
    (by decide) (by decide) (by decide) (by decide) (by decide) (by decide)
  ⟨by decide, h.1, h.2.2.2.2.1⟩

theorem writtenPaths_append (l1 l2 : List Event) :
    writtenPaths (l1 ++ l2) = writtenPaths l1 ++ writtenPaths l2 := by
  induction l1 with
  | nil => rfl
  | cons e rest ih => cases e <;> simp [writtenPaths, ih]

/-- C5: when `Obtain` succeeds, `createCertificate` enters `writeCerts` with the
new bundle already sent on the channel and already stored in `a.certs`, and
with no file written yet; whatever `writeCerts` then does (success, error or
panic), `a.certs` stays the new bundle and the bundle stays sent.  The bundle
is the map with exactly the entries `certificate`, holding the `Certificate`
bytes of the obtained resource, and `privatekey`, holding its `PrivateKey`
bytes.  When the issuance fails before the publish nothing is sent and
`a.certs` is unchanged. -/
theorem createCertificate_publishes_before_persisting (lib : Lib) (env : CreateEnv) (a : Acme)
    (w : World) (c : LegoClient) (res : Resource)
    (hc : a.client = some c) (hp : env.provider = none) (hs : env.setProvider = none)
    (ho : env.obtain = .ok res) :
    (a.createCertificate lib env w).2.1
      = (Acme.writeCerts lib env.writes { a with certs := bundleOf res }
          ((w.emit (.obtain a.domains)).emit (.send (bundleOf res))) res).1 ∧
    ((w.emit (.obtain a.domains)).emit (.send (bundleOf res))).fs = w.fs ∧
    writtenPaths ((w.emit (.obtain a.domains)).emit (.send (bundleOf res))).trace
      = writtenPaths w.trace ∧
    (∃ tail, (a.createCertificate lib env w).2.1.trace
        = w.trace ++ [.obtain a.domains, .send (bundleOf res)] ++ tail ∧
      sentBundles tail = []) ∧
    (a.createCertificate lib env w).1.certs = bundleOf res ∧
    sentBundles (a.createCertificate lib env w).2.1.trace
      = sentBundles w.trace ++ [bundleOf res] ∧
    (∀ env2 : CreateEnv, env2.failsBeforePublish = true →
      sentBundles (a.createCertificate lib env2 w).2.1.trace = sentBundles w.trace ∧
      (a.createCertificate lib env2 w).1.certs = a.certs) ∧
    (a.createCertificate lib env w).1.certs
      = [("certificate", res.certificate), ("privatekey", res.privateKey)] ∧
    (a.createCertificate lib env w).1.certs.get "certificate" = res.certificate ∧
    (a.createCertificate lib env w).1.certs.get "privatekey" = res.privateKey ∧
    sentBundles (a.createCertificate lib env w).2.1.trace
      = sentBundles w.trace
          ++ [[("certificate", res.certificate), ("privatekey", res.privateKey)]] ∧
    (∃ tail, (a.createCertificate lib env w).2.1.trace
        = w.trace
            ++ [.obtain a.domains,
                .send [("certificate", res.certificate), ("privatekey", res.privateKey)]]
            ++ tail ∧
      sentBundles tail = [] ∧
      writtenPaths (a.createCertificate lib env w).2.1.trace
        = writtenPaths w.trace ++ writtenPaths tail) := by
  have hok := createCertificate_obtain_ok lib env a w c res hc hp hs ho
  have hsent := createCertificate_sends lib env a w c res hc hp hs ho
  have hcerts : (a.createCertificate lib env w).1.certs = bundleOf res := by rw [hok.1]
  have hlit : bundleOf res = [("certificate", res.certificate), ("privatekey", res.privateKey)] :=
    rfl
  have htail : ∃ tail, (a.createCertificate lib env w).2.1.trace
      = w.trace ++ [.obtain a.domains, .send (bundleOf res)] ++ tail ∧ sentBundles tail = [] := by
    obtain ⟨tail, h1, h2, _⟩ := writeCerts_trace lib env.writes { a with certs := bundleOf res }
      ((w.emit (.obtain a.domains)).emit (.send (bundleOf res))) res
    refine ⟨tail, ?_, h2⟩
    rw [hok.2, h1]
    simp [World.emit]
  refine ⟨hok.2, rfl, ?_, htail, hcerts, hsent, ?_, ?_, ?_, ?_, ?_, ?_⟩
  · simp [World.emit, writtenPaths_append, writtenPaths]
  · intro env2 h2
    have := createCertificate_err_before_publish lib env2 a w h2
    exact ⟨this.2, by rw [this.1]⟩
  · rw [hcerts, hlit]
  · rw [hcerts, hlit]
    simp [CertsMap.get]
  · rw [hcerts, hlit]
    simp [CertsMap.get]
  · rw [hsent, hlit]
  · obtain ⟨tail, h1, h2⟩ := htail
    refine ⟨tail, by rw [h1, hlit], h2, ?_⟩
    rw [h1]
    simp [writtenPaths_append, writtenPaths]

/-- C5, run on an issuance whose key write fails: the error is returned, and the
bundle with the chain and the key of the obtained resource stays published and
stays in `a.certs`. -/
theorem createCertificate_publishes_before_persisting_witness :
    ((servingAcme 5).client
       = some { caDirURL := "https://acme-v02.api.letsencrypt.org/directory", keyType := "P256" } ∧
     (keyWriteFails resourceTwo).provider = none ∧
     (keyWriteFails resourceTwo).setProvider = none ∧
     (keyWriteFails resourceTwo).obtain = .ok resourceTwo) ∧
    (Acme.createCertificate demoLib (keyWriteFails resourceTwo) (servingAcme 5)
      { fs := fullFS }).2.2 = .err (.errOther "/w/certs/key.pem") ∧
    (Acme.createCertificate demoLib (keyWriteFails resourceTwo) (servingAcme 5)
      { fs := fullFS }).1.certs = bundleOf resourceTwo ∧
    sentBundles (Acme.createCertificate demoLib (keyWriteFails resourceTwo) (servingAcme 5)
      { fs := fullFS }).2.1.trace = sentBundles ({ fs := fullFS } : World).trace
        ++ [bundleOf resourceTwo] ∧
    (Acme.createCertificate demoLib (keyWriteFails resourceTwo) (servingAcme 5)
      { fs := fullFS }).1.certs
      = [("certificate", resourceTwo.certificate), ("privatekey", resourceTwo.privateKey)] ∧
    (Acme.createCertificate demoLib (keyWriteFails resourceTwo) (servingAcme 5)
      { fs := fullFS }).1.certs.get "certificate" = resourceTwo.certificate ∧
    (Acme.createCertificate demoLib (keyWriteFails resourceTwo) (servingAcme 5)
      { fs := fullFS }).1.certs.get "privatekey" = resourceTwo.privateKey ∧
    sentBundles (Acme.createCertificate demoLib (keyWriteFails resourceTwo) (servingAcme 5)
      { fs := fullFS }).2.1.trace
      = sentBundles ({ fs := fullFS } : World).trace
          ++ [[("certificate", resourceTwo.certificate),
               ("privatekey", resourceTwo.privateKey)]] ∧
    (Acme.createCertificate demoLib (keyWriteFails resourceTwo) (servingAcme 5)
      { fs := fullFS }).1.certs = [("certificate", [30, 31]), ("privatekey", [30, 32])] ∧
    sentBundles (Acme.createCertificate demoLib (keyWriteFails resourceTwo) (servingAcme 5)
      { fs := fullFS }).2.1.trace = [[("certificate", [30, 31]), ("privatekey", [30, 32])]] :=
  have h := createCertificate_publishes_before_persisting demoLib (keyWriteFails resourceTwo)
    (servingAcme 5) { fs := fullFS }
    { caDirURL := "https://acme-v02.api.letsencrypt.org/directory", keyType := "P256" }
    resourceTwo (by decide) (by decide) (by decide) rfl
  ⟨⟨by decide, by decide, by decide, rfl⟩, by decide, h.2.2.2.2.1, h.2.2.2.2.2.1,
   h.2.2.2.2.2.2.2.1, h.2.2.2.2.2.2.2.2.1, h.2.2.2.2.2.2.2.2.2.1, h.2.2.2.2.2.2.2.2.2.2.1,
   h.2.2.2.2.2.2.2.1, h.2.2.2.2.2.2.2.2.2.2.1⟩

/-- C6 (counterexample): after a renewal that wrote `cert.pem` and failed on
`key.pem`, the store holds the new chain next to the old key, which do not parse
as a key pair; `Acme.loadCerts`, `Acme.restore` and `Server.loadCerts` all
install that pair and return no error. -/
theorem loadCerts_accepts_mismatched_pair :
    mixedWorld.fs "/w/certs/cert.pem" = .file resourceTwo.certificate ∧
    mixedWorld.fs "/w/certs/key.pem" = .file [10, 12] ∧
    (demoLib.x509KeyPair resourceTwo.certificate [10, 12]).toOption = none ∧
    (Acme.loadCerts demoAcme mixedWorld.fs).2 = none ∧
    (Acme.loadCerts demoAcme mixedWorld.fs).1.certs
      = [("certificate", resourceTwo.certificate), ("privatekey", [10, 12])] ∧
    (Acme.restore demoLib none demoAcme mixedWorld.fs).2 = none ∧
    (Acme.restore demoLib none demoAcme mixedWorld.fs).1.certs
      = [("certificate", resourceTwo.certificate), ("privatekey", [10, 12])] ∧
    (Server.loadCerts demoServer mixedWorld.fs).2 = none ∧
    (Server.loadCerts demoServer mixedWorld.fs).1.certs
      = [("certificate", resourceTwo.certificate), ("privatekey", [10, 12])] := by
  decide

theorem acme_loadCerts_absent (a : Acme) (fs : FS)
    (h : fs (certPath a) = .absent ∨ fs (keyPath a) = .absent) :
    (a.loadCerts fs).2 ≠ none ∧ (a.loadCerts fs).1 = a := by
  unfold Acme.loadCerts readFile
  rcases h with h | h
  · simp [h]
  · cases hc : fs (certPath a) <;> simp [h]

theorem acme_restore_absent (lib : Lib) (clientResult : Option GoError) (a : Acme) (fs : FS)
    (h : fs (certPath a) = .absent ∨ fs (keyPath a) = .absent) :
    (a.restore lib clientResult fs).2 ≠ none ∧ (a.restore lib clientResult fs).1.certs = a.certs := by
  unfold Acme.restore
  cases h1 : readFile fs (statePath a) with
  | error e => simp
  | ok state =>
    rcases h2 : lib.jsonUnmarshalUser state a.user with ⟨u, oe⟩
    cases oe with
    | some e => simp [h2]
    | none =>
      cases h3 : lib.parseECPrivateKey u.pkb with
      | error e => simp [h2, h3]
      | ok pk =>
        have hl := acme_loadCerts_absent { a with user := { u with key := some pk } } fs h
        rcases h4 : Acme.loadCerts { a with user := { u with key := some pk } } fs with ⟨a2, oe2⟩
        rw [h4] at hl
        cases oe2 with
        | none => simp at hl
        | some e =>
          simp only at hl
          simp [h2, h3, h4, hl.2]

/-- C6 (amended): when `certs/cert.pem` or `certs/key.pem` is absent, `Acme.loadCerts`
and `Acme.restore` return an error and `Server.loadCerts` returns without
installing anything, the in-memory bundle staying as it was; when both files
are present and readable, both `loadCerts` install the bytes read, whatever
they are, and return no error. -/
theorem loadCerts_needs_both_files (lib : Lib) (clientResult : Option GoError) (a : Acme)
    (srv : Server) (fs1 fs2 : FS) (c k : Bytes) (hw : srv.workdir = a.workdir)
    (h1 : fs1 (certPath a) = .absent ∨ fs1 (keyPath a) = .absent)
    (h2c : fs2 (certPath a) = .file c) (h2k : fs2 (keyPath a) = .file k) :
    ((a.loadCerts fs1).2 ≠ none ∧ (a.loadCerts fs1).1 = a ∧
     (a.restore lib clientResult fs1).2 ≠ none ∧
     (a.restore lib clientResult fs1).1.certs = a.certs ∧
     (srv.loadCerts fs1).1 = srv) ∧
    (a.loadCerts fs2 = ({ a with certs := [("certificate", c), ("privatekey", k)] }, none) ∧
     srv.loadCerts fs2 = ({ srv with certs := [("certificate", c), ("privatekey", k)] }, none)) := by
  have hA := acme_loadCerts_absent a fs1 h1
  have hR := acme_restore_absent lib clientResult a fs1 h1
  simp only [certPath, keyPath] at h1 h2c h2k
  refine ⟨⟨hA.1, hA.2, hR.1, hR.2, ?_⟩, ?_, ?_⟩
  · unfold Server.loadCerts readFile
    rw [hw]
    rcases h1 with h | h
    · simp [h, GoError.isNotExist]
    · cases hc : fs1 (a.workdir ++ "/certs/cert.pem") <;> simp [h, GoError.isNotExist]
  · unfold Acme.loadCerts readFile certPath keyPath
    simp [h2c, h2k, CertsMap.put]
  · unfold Server.loadCerts readFile
    rw [hw]
    simp [h2c, h2k, CertsMap.put, GoError.isNotExist]


/-- C6 (amended), run on a store without `key.pem` and on the store that holds
the chain and the key of two different issuances. -/
theorem loadCerts_needs_both_files_witness :
    (demoServer.workdir = demoAcme.workdir ∧
     (certOnlyFS (certPath demoAcme) = .absent ∨ certOnlyFS (keyPath demoAcme) = .absent) ∧
     mixedWorld.fs (certPath demoAcme) = .file [30, 31] ∧
     mixedWorld.fs (keyPath demoAcme) = .file [10, 12]) ∧
    ((demoAcme.loadCerts certOnlyFS).2 ≠ none ∧ (demoAcme.loadCerts certOnlyFS).1 = demoAcme ∧
     (demoAcme.restore demoLib none certOnlyFS).2 ≠ none ∧
     (demoAcme.restore demoLib none certOnlyFS).1.certs = demoAcme.certs ∧
     (demoServer.loadCerts certOnlyFS).1 = demoServer) ∧
    (demoAcme.loadCerts mixedWorld.fs
       = ({ demoAcme with certs := [("certificate", [30, 31]), ("privatekey", [10, 12])] }, none) ∧
     demoServer.loadCerts mixedWorld.fs
       = ({ demoServer with certs := [("certificate", [30, 31]), ("privatekey", [10, 12])] },
          none)) :=
  have h := loadCerts_needs_both_files demoLib none demoAcme demoServer certOnlyFS mixedWorld.fs
    [30, 31] [10, 12] (by decide) (by decide) (by decide) (by decide)
  ⟨by decide, h.1, h.2⟩

/-- C7: `Seal` hands the service exactly `req.Data` as plaintext (the conversion to
`string` and back changes no byte) and answers with exactly the service's
`CiphertextBlob`; `Unseal` hands it exactly `req.Data` as ciphertext and
answers with exactly the service's `Plaintext`; when the service call fails the
handler returns the wrapped error and no response; neither result depends on
`req.NodeUuid`. -/
theorem seal_unseal_pass_through (srv : Server) (svc : KMSService) (req : Request) :
    bytesOfString (stringOfBytes req.data) = req.data ∧
    srv.Seal svc req =
      (match svc.encrypt { keyId := some srv.awscli.keyID, plaintext := req.data } with
       | .ok out => .ok { data := out.ciphertextBlob }
       | .error err => .error (.wrapped "could not encrypt data" err)) ∧
    srv.Unseal svc req =
      (match svc.decrypt { keyId := none, ciphertextBlob := req.data } with
       | .ok out => .ok { data := out.plaintext }
       | .error err => .error (.wrapped "could not decrypt data" err)) ∧
    (∀ uuid : String, srv.Seal svc { req with nodeUuid := uuid } = srv.Seal svc req) ∧
    (∀ uuid : String, srv.Unseal svc { req with nodeUuid := uuid } = srv.Unseal svc req) := by
  refine ⟨rfl, ?_, ?_, fun _ => rfl, fun _ => rfl⟩
  · unfold Server.Seal AWS.EncryptData AWS.encryptRequest bytesOfString stringOfBytes
    cases svc.encrypt { keyId := some srv.awscli.keyID, plaintext := req.data } <;> rfl
  · unfold Server.Unseal AWS.DecryptData AWS.decryptRequest bytesOfString stringOfBytes
    cases svc.decrypt { keyId := none, ciphertextBlob := req.data } <;> rfl

/-- C8 (counterexample): on the server built by `NewServer` with
`AWS_KMS_KEY_ID=key-1`, the request built by `DecryptData` carries no key
identifier, while the one built by `EncryptData` carries `key-1`. -/
theorem decryptData_request_has_no_key_id :
    (NewServer demoGetenv none echoService ":4050" "/w").toOption = some demoServer ∧
    demoServer.awscli.keyID = "key-1" ∧
    (demoServer.awscli.decryptRequest ⟨[1, 2, 3]⟩).keyId = none ∧
    (demoServer.awscli.DecryptData echoService ⟨[1, 2, 3]⟩).toOption
      = some { plaintext := [1, 2, 3], keyId := none } ∧
    (demoServer.awscli.EncryptData echoService ⟨[1, 2, 3]⟩).toOption
      = some { ciphertextBlob := [1, 2, 3], keyId := some "key-1" } := by
  decide

/-- C8 (amended): on a server built by `NewServer`, `AWS.KeyID` is the value of
`AWS_KMS_KEY_ID`; the request built by `EncryptData` carries that value as
`KeyId`, and the request built by `DecryptData` carries the ciphertext only,
with no `KeyId`. -/
theorem encrypt_keyed_decrypt_unkeyed (getenv : String → String) (svc : KMSService)
    (endpoint workdir : String) (srv : Server) (data : GoString)
    (h : NewServer getenv none svc endpoint workdir = .ok srv) :
    srv.awscli.keyID = getenv "AWS_KMS_KEY_ID" ∧
    srv.awscli.encryptRequest data
      = { keyId := some (getenv "AWS_KMS_KEY_ID"), plaintext := data.bytes } ∧
    srv.awscli.decryptRequest data = { keyId := none, ciphertextBlob := data.bytes } ∧
    srv.awscli.EncryptData svc data =
      (match svc.encrypt { keyId := some (getenv "AWS_KMS_KEY_ID"), plaintext := data.bytes } with
       | .ok out => .ok out
       | .error err => .error (.wrapped "could not encrypt data" err)) ∧
    srv.awscli.DecryptData svc data =
      (match svc.decrypt { keyId := none, ciphertextBlob := data.bytes } with
       | .ok out => .ok out
       | .error err => .error (.wrapped "could not decrypt data" err)) := by
  have hk : srv.awscli.keyID = getenv "AWS_KMS_KEY_ID" := by
    unfold NewServer at h
    simp only at h
    split at h
    · cases h
    · cases h
      rfl
  refine ⟨hk, ?_, rfl, ?_, ?_⟩
  · simp [AWS.encryptRequest, bytesOfString, hk]
  · unfold AWS.EncryptData AWS.encryptRequest bytesOfString
    rw [hk]
    cases svc.encrypt { keyId := some (getenv "AWS_KMS_KEY_ID"), plaintext := data.bytes } <;> rfl
  · unfold AWS.DecryptData AWS.decryptRequest bytesOfString
    cases svc.decrypt { keyId := none, ciphertextBlob := data.bytes } <;> rfl

/-- C8 (amended), run on the server configured with `key-1`. -/
theorem encrypt_keyed_decrypt_unkeyed_witness :
    NewServer demoGetenv none echoService ":4050" "/w" = .ok demoServer ∧
    demoServer.awscli.keyID = demoGetenv "AWS_KMS_KEY_ID" ∧
    demoServer.awscli.decryptRequest ⟨[1, 2, 3]⟩ = { keyId := none, ciphertextBlob := [1, 2, 3] } :=
  have h := encrypt_keyed_decrypt_unkeyed demoGetenv echoService ":4050" "/w" demoServer
    ⟨[1, 2, 3]⟩ rfl
  ⟨rfl, h.1, h.2.2.1⟩

theorem server_serveLoop_append (lib : Lib) (pre rest : List SrvEvent) (srv : Server)
    (h : noCtxDone pre = true) :
    Server.serveLoop lib (pre ++ rest) srv
      = ((Server.serveLoop lib rest (Server.serveLoop lib pre srv).1).1,
         (Server.serveLoop lib pre srv).2.1
           ++ (Server.serveLoop lib rest (Server.serveLoop lib pre srv).1).2.1,
         (Server.serveLoop lib rest (Server.serveLoop lib pre srv).1).2.2) := by
  induction pre generalizing srv with
  | nil => simp [Server.serveLoop]
  | cons e pre ih =>
    cases e with
    | ctxDone => simp [noCtxDone] at h
    | recv b =>
      simp only [noCtxDone] at h
      rw [List.cons_append]
      simp only [Server.serveLoop]
      exact ih _ h
    | hello =>
      simp only [noCtxDone] at h
      rw [List.cons_append]
      simp only [Server.serveLoop]
      rw [ih _ h]
      simp

theorem server_serveLoop_hellos (lib : Lib) (k : Nat) (srv : Server) :
    Server.serveLoop lib (List.replicate k .hello) srv
      = (srv, List.replicate k (srv.getCerts lib), false) := by
  induction k with
  | zero => rfl
  | succ n ih => simp [List.replicate_succ, Server.serveLoop, ih]


theorem server_loadCerts_no_error (srv : Server) (fs : FS) : (srv.loadCerts fs).2 = none := by
  unfold Server.loadCerts
  simp only
  split
  · rfl
  · split <;> rfl

theorem server_Serve_eq (lib : Lib) (events : List SrvEvent) (srv : Server) (fs : FS) :
    Server.Serve lib events srv fs
      = ((Server.serveLoop lib events (srv.loadCerts fs).1).1,
         (Server.serveLoop lib events (srv.loadCerts fs).1).2.1,
         if (Server.serveLoop lib events (srv.loadCerts fs).1).2.2 then some none else none) := by
  have h := server_loadCerts_no_error srv fs
  unfold Server.Serve
  rcases hl : srv.loadCerts fs with ⟨s1, oe⟩
  rw [hl] at h
  simp only at h
  subst h
  rfl

theorem server_loadCerts_absent (srv : Server) (fs : FS)
    (h : fs (srv.workdir ++ "/certs/cert.pem") = .absent ∨
         fs (srv.workdir ++ "/certs/key.pem") = .absent) :
    (srv.loadCerts fs).1 = srv := by
  unfold Server.loadCerts readFile
  rcases h with h | h
  · simp [h, GoError.isNotExist]
  · cases hc : fs (srv.workdir ++ "/certs/cert.pem") <;> simp [h, GoError.isNotExist]

/-- C9: `getCerts` is the parse of the bundle held at the moment of the call and of
nothing else.  With a library that rejects the empty certificate input, a
server started with no bundle and with a certificate file missing answers every
call with an error until a bundle arrives; and whatever happened before (failed
calls included), the call made after a bundle arrived returns exactly the parse
of that bundle, the earlier results staying as they were. -/
theorem getCerts_parses_current_bundle (lib : Lib) (srv : Server) (fs : FS)
    (pre : List SrvEvent) (b : CertsMap) (k : Nat)
    (hempty : ∀ key, (lib.x509KeyPair [] key).toOption = none)
    (hnone : srv.certs = [])
    (habsent : fs (srv.workdir ++ "/certs/cert.pem") = .absent ∨
               fs (srv.workdir ++ "/certs/key.pem") = .absent)
    (hpre : noCtxDone pre = true) :
    (∀ s : Server, s.getCerts lib
      = lib.x509KeyPair (s.certs.get "certificate") (s.certs.get "privatekey")) ∧
    (srv.getCerts lib).toOption = none ∧
    (Server.Serve lib (List.replicate k .hello) srv fs).2.1
      = List.replicate k (srv.getCerts lib) ∧
    (Server.Serve lib (pre ++ [.recv b, .hello]) srv fs).2.1
      = (Server.Serve lib pre srv fs).2.1
          ++ [lib.x509KeyPair (b.get "certificate") (b.get "privatekey")] := by
  have hget : ∀ s : Server, s.getCerts lib
      = lib.x509KeyPair (s.certs.get "certificate") (s.certs.get "privatekey") := by
    intro s
    unfold Server.getCerts
    cases lib.x509KeyPair (s.certs.get "certificate") (s.certs.get "privatekey") <;> rfl
  refine ⟨hget, ?_, ?_, ?_⟩
  · rw [hget, hnone]
    exact hempty _
  · rw [server_Serve_eq, server_loadCerts_absent srv fs habsent, server_serveLoop_hellos]
  · rw [server_Serve_eq, server_Serve_eq, server_serveLoop_append lib pre _ _ hpre]
    simp [Server.serveLoop, hget]

/-- C10: whatever the store held at start-up and whatever was received before,
once the loop of `Server.Serve` has received the bundle `b` the active bundle is
`b`, and every `getCerts` call made before the next receive returns the parse of
`b`. -/
theorem serve_applies_bundles_in_order (lib : Lib) (srv : Server) (fs : FS)
    (pre : List SrvEvent) (b : CertsMap) (k : Nat) (hpre : noCtxDone pre = true) :
    (Server.Serve lib (pre ++ .recv b :: List.replicate k .hello) srv fs).1.certs = b ∧
    (Server.Serve lib (pre ++ .recv b :: List.replicate k .hello) srv fs).2.1
      = (Server.Serve lib pre srv fs).2.1
          ++ List.replicate k (lib.x509KeyPair (b.get "certificate") (b.get "privatekey")) := by
  have hget : ∀ s : Server, s.getCerts lib
      = lib.x509KeyPair (s.certs.get "certificate") (s.certs.get "privatekey") := by
    intro s
    unfold Server.getCerts
    cases lib.x509KeyPair (s.certs.get "certificate") (s.certs.get "privatekey") <;> rfl
  rw [server_Serve_eq, server_Serve_eq, server_serveLoop_append lib pre _ _ hpre]
  simp [Server.serveLoop, server_serveLoop_hellos, hget]


/-- C9, run on a server started on an empty store: a call that fails, then a
bundle, then a call. -/
theorem getCerts_parses_current_bundle_witness :
    ((∀ key, (demoLib.x509KeyPair [] key).toOption = none) ∧
     demoServer.certs = [] ∧
     (emptyFS (demoServer.workdir ++ "/certs/cert.pem") = .absent ∨
      emptyFS (demoServer.workdir ++ "/certs/key.pem") = .absent) ∧
     noCtxDone [.hello] = true) ∧
    (demoServer.getCerts demoLib).toOption = none ∧
    (Server.Serve demoLib (List.replicate 2 .hello) demoServer emptyFS).2.1
      = List.replicate 2 (demoServer.getCerts demoLib) ∧
    (Server.Serve demoLib ([.hello] ++ [.recv (bundleOf resourceOne), .hello]) demoServer
        emptyFS).2.1
      = (Server.Serve demoLib [.hello] demoServer emptyFS).2.1
          ++ [demoLib.x509KeyPair ((bundleOf resourceOne).get "certificate")
                ((bundleOf resourceOne).get "privatekey")] :=
  have h := getCerts_parses_current_bundle demoLib demoServer emptyFS [.hello]
    (bundleOf resourceOne) 2 (fun _ => rfl) rfl (Or.inl rfl) rfl
  ⟨⟨fun _ => rfl, rfl, Or.inl rfl, rfl⟩, h.2.1, h.2.2.1, h.2.2.2⟩

/-- C10, run on a server started on a full store that receives two bundles. -/
theorem serve_applies_bundles_in_order_witness :
    noCtxDone [.recv (bundleOf resourceOne), .hello] = true ∧
    (Server.Serve demoLib
      ([.recv (bundleOf resourceOne), .hello] ++ .recv (bundleOf resourceTwo)
        :: List.replicate 2 .hello) demoServer fullFS).1.certs = bundleOf resourceTwo ∧
    (Server.Serve demoLib
      ([.recv (bundleOf resourceOne), .hello] ++ .recv (bundleOf resourceTwo)
        :: List.replicate 2 .hello) demoServer fullFS).2.1
      = (Server.Serve demoLib [.recv (bundleOf resourceOne), .hello] demoServer fullFS).2.1
          ++ List.replicate 2 (demoLib.x509KeyPair ((bundleOf resourceTwo).get "certificate")
                ((bundleOf resourceTwo).get "privatekey")) :=
  have h := serve_applies_bundles_in_order demoLib demoServer fullFS
    [.recv (bundleOf resourceOne), .hello] (bundleOf resourceTwo) 2 rfl
  ⟨rfl, h.1, h.2⟩

theorem path_append_cancel (w s t : String) (h : w ++ s = w ++ t) : s.data = t.data := by
  have h2 := congrArg String.data h
  simp only [String.data_append] at h2
  exact List.append_cancel_left h2

theorem statePath_ne_certPath (a : Acme) : statePath a ≠ certPath a := by
  intro h
  have := path_append_cancel _ _ _ h
  revert this
  decide

theorem statePath_ne_keyPath (a : Acme) : statePath a ≠ keyPath a := by
  intro h
  have := path_append_cancel _ _ _ h
  revert this
  decide

theorem certPath_ne_keyPath (a : Acme) : certPath a ≠ keyPath a := by
  intro h
  have := path_append_cancel _ _ _ h
  revert this
  decide

theorem statePath_ne_metaPath (a : Acme) (d0 : String) :
    statePath a ≠ a.workdir ++ "/certs/" ++ d0 := by
  intro h
  unfold statePath at h
  rw [String.append_assoc] at h
  have h2 := path_append_cancel _ _ _ h
  simp only [String.data_append] at h2
  simp at h2


theorem restore_of_files (lib : Lib) (clientResult : Option GoError) (a : Acme) (fs : FS)
    (st c k : Bytes) (u : AcmeUser) (pk : ECPrivateKey)
    (hst : fs (statePath a) = .file st) (hc : fs (certPath a) = .file c)
    (hk : fs (keyPath a) = .file k)
    (hjson : lib.jsonUnmarshalUser st a.user = (u, none))
    (hparse : lib.parseECPrivateKey u.pkb = .ok pk) :
    (a.restore lib clientResult fs).2 = clientResult ∧
    (a.restore lib clientResult fs).1.user = { u with key := some pk } ∧
    (a.restore lib clientResult fs).1.certs = [("certificate", c), ("privatekey", k)] := by
  have hl : Acme.loadCerts { a with user := { u with key := some pk } } fs
      = ({ a with user := { u with key := some pk },
                  certs := [("certificate", c), ("privatekey", k)] }, none) := by
    simp only [certPath, keyPath] at hc hk
    simp [Acme.loadCerts, readFile, certPath, keyPath, hc, hk, CertsMap.put]
  unfold Acme.restore
  simp only [readFile, hst, hjson, hparse, hl]
  cases clientResult <;> simp [Acme.createLegoClient]

theorem writeFile_other (fs : FS) (p q : String) (data : Bytes) (o : WriteOutcome)
    (h : q ≠ p) : (writeFile fs p data o).1 q = fs q := by
  cases o <;> simp [writeFile, FS.set, h]


theorem writeState_fs (lib : Lib) (o : WriteOutcome) (a : Acme) (w : World)
    (h : (a.writeState lib o w).2 = none) :
    ∃ st, lib.jsonMarshalUser a.user = .ok st ∧
      (a.writeState lib o w).1.fs = w.fs.set (statePath a) (.file st) := by
  unfold Acme.writeState at h ⊢
  cases hm : lib.jsonMarshalUser a.user with
  | error e => simp [hm] at h
  | ok st =>
    refine ⟨st, rfl, ?_⟩
    cases o with
    | ok => simp [writeFile, World.emit]
    | failOpen e => simp [hm, writeFile] at h
    | failShort e n => simp [hm, writeFile] at h

theorem writeCerts_fs (lib : Lib) (env : WriteCertsEnv) (a : Acme) (w : World) (res : Resource)
    (h : (a.writeCerts lib env w res).2 = .ok) :
    (a.writeCerts lib env w res).1.fs (certPath a) = .file res.certificate ∧
    (a.writeCerts lib env w res).1.fs (keyPath a) = .file res.privateKey ∧
    (a.writeCerts lib env w res).1.fs (statePath a) = w.fs (statePath a) := by
  unfold Acme.writeCerts at h ⊢
  cases hd : a.domains with
  | nil => simp [hd] at h
  | cons d0 ds =>
    simp only [hd] at h ⊢
    cases hco : env.certOutcome with
    | failOpen e => simp [hco, writeFile, World.emit] at h
    | failShort e n => simp [hco, writeFile, World.emit] at h
    | ok =>
      cases hko : env.keyOutcome with
      | failOpen e => simp [hco, hko, writeFile, World.emit] at h
      | failShort e n => simp [hco, hko, writeFile, World.emit] at h
      | ok =>
        have h1 := certPath_ne_keyPath a
        have h2 := statePath_ne_certPath a
        have h3 := statePath_ne_keyPath a
        have h4 := statePath_ne_metaPath a d0
        have h5 := writeFile_other w.fs (a.workdir ++ "/certs/" ++ d0)
          (statePath a) (match lib.jsonMarshalResource res with
            | .ok b => b
            | .error _ => []) env.metaOutcome h4
        have hok : ∀ (fs : FS) (p : String) (d : Bytes),
            writeFile fs p d .ok = (fs.set p (.file d), none) := fun _ _ _ => rfl
        simp only [hok, World.emit, FS.set]
        simp [h1, h2, h3, h1.symm, h5]


/-- C11 (counterexample): the account and the certificate were written with every
write succeeding; at the restart `lego.NewClient` cannot reach the directory of
the authority, so `restore` returns that error and `Serve` returns it in turn. -/
theorem restore_fails_without_client :
    (writerAcme.writeState demoLib .ok { fs := emptyFS }).2 = none ∧
    (writerAcme.writeCerts demoLib allWritesOk
      (writerAcme.writeState demoLib .ok { fs := emptyFS }).1 resourceOne).2 = .ok ∧
    (Acme.restore demoLib (some directoryUnreachable) demoAcme persistedWorld.fs).2
      = some directoryUnreachable ∧
    (Acme.Serve demoLib
      { restoreClient := some directoryUnreachable, init := initOk,
        first := createOk resourceTwo, now0 := 0, events := [] }
      demoAcme persistedWorld).2.2 = .returned (some directoryUnreachable) := by
  decide

/-- C11 (amended): after `writeState` and `writeCerts` of an account and a
certificate resource into one working directory, every write having succeeded,
`restore` on a fresh agent with that working directory rebuilds a user with the
same email, the same registration and the same private key, and a bundle whose
`certificate` and `privatekey` bytes are those written; the error it returns is
that of `createLegoClient`, so it succeeds exactly when the client can be
created.  The round trips of encoding/json and of crypto/x509 on this account
are hypotheses. -/
theorem restore_after_persist (lib : Lib) (clientResult : Option GoError) (a : Acme) (w0 : World)
    (o : WriteOutcome) (env : WriteCertsEnv) (res : Resource) (k : ECPrivateKey)
    (domains : List String) (email : String) (dev : Bool)
    (hkey : a.user.key = some k)
    (hder : lib.marshalECPrivateKey k = .ok a.user.pkb)
    (hx509 : ∀ der, lib.marshalECPrivateKey k = .ok der → lib.parseECPrivateKey der = .ok k)
    (hjson : ∀ st, lib.jsonMarshalUser a.user = .ok st → ∀ t : AcmeUser,
      lib.jsonUnmarshalUser st t
        = ({ email := a.user.email, registration := a.user.registration, key := t.key,
             pkb := a.user.pkb }, none))
    (hws : (a.writeState lib o w0).2 = none)
    (hwc : (a.writeCerts lib env (a.writeState lib o w0).1 res).2 = .ok) :
    ((New domains email a.workdir dev).restore lib clientResult
      (a.writeCerts lib env (a.writeState lib o w0).1 res).1.fs).2 = clientResult ∧
    ((New domains email a.workdir dev).restore lib clientResult
      (a.writeCerts lib env (a.writeState lib o w0).1 res).1.fs).1.user.email = a.user.email ∧
    ((New domains email a.workdir dev).restore lib clientResult
      (a.writeCerts lib env (a.writeState lib o w0).1 res).1.fs).1.user.registration
        = a.user.registration ∧
    ((New domains email a.workdir dev).restore lib clientResult
      (a.writeCerts lib env (a.writeState lib o w0).1 res).1.fs).1.user.key = some k ∧
    ((New domains email a.workdir dev).restore lib clientResult
      (a.writeCerts lib env (a.writeState lib o w0).1 res).1.fs).1.user = a.user ∧
    ((New domains email a.workdir dev).restore lib clientResult
      (a.writeCerts lib env (a.writeState lib o w0).1 res).1.fs).1.certs.get "certificate"
        = res.certificate ∧
    ((New domains email a.workdir dev).restore lib clientResult
      (a.writeCerts lib env (a.writeState lib o w0).1 res).1.fs).1.certs.get "privatekey"
        = res.privateKey := by
  obtain ⟨st, hm, hfs1⟩ := writeState_fs lib o a w0 hws
  obtain ⟨hc, hk, hs⟩ := writeCerts_fs lib env a (a.writeState lib o w0).1 res hwc
  rw [hfs1] at hs
  have hst : (a.writeCerts lib env (a.writeState lib o w0).1 res).1.fs (statePath a)
      = .file st := by
    rw [hs]
    simp [FS.set]
  have hr := restore_of_files lib clientResult (New domains email a.workdir dev)
    (a.writeCerts lib env (a.writeState lib o w0).1 res).1.fs st res.certificate res.privateKey
    { email := a.user.email, registration := a.user.registration, key := none,
      pkb := a.user.pkb } k hst hc hk (hjson st hm _) (hx509 _ hder)
  obtain ⟨h1, h2, h3⟩ := hr
  have hu : ({ email := a.user.email, registration := a.user.registration, key := some k,
               pkb := a.user.pkb } : AcmeUser) = a.user := by
    rw [← hkey]
  refine ⟨h1, ?_, ?_, ?_, ?_, ?_, ?_⟩
  · rw [h2]
  · rw [h2]
  · rw [h2]
  · rw [h2]; exact hu
  · rw [h3]; simp [CertsMap.get]
  · rw [h3]; simp [CertsMap.get]


/-- C11 (amended), run on the account and the certificate of an earlier run, the
client being created at the restart. -/
theorem restore_after_persist_witness :
    (writerAcme.user.key = some ⟨5⟩ ∧
     demoLib.marshalECPrivateKey ⟨5⟩ = .ok writerAcme.user.pkb ∧
     (∀ der, demoLib.marshalECPrivateKey ⟨5⟩ = .ok der →
       demoLib.parseECPrivateKey der = .ok ⟨5⟩) ∧
     (∀ st, demoLib.jsonMarshalUser writerAcme.user = .ok st → ∀ t : AcmeUser,
       demoLib.jsonUnmarshalUser st t
         = ({ email := writerAcme.user.email, registration := writerAcme.user.registration,
              key := t.key, pkb := writerAcme.user.pkb }, none)) ∧
     (writerAcme.writeState demoLib .ok { fs := emptyFS }).2 = none ∧
     (writerAcme.writeCerts demoLib allWritesOk
       (writerAcme.writeState demoLib .ok { fs := emptyFS }).1 resourceOne).2 = .ok) ∧
    ((New ["kms.example.com"] "ops@example.com" writerAcme.workdir false).restore demoLib none
      (writerAcme.writeCerts demoLib allWritesOk
        (writerAcme.writeState demoLib .ok { fs := emptyFS }).1 resourceOne).1.fs).2 = none ∧
    ((New ["kms.example.com"] "ops@example.com" writerAcme.workdir false).restore demoLib none
      (writerAcme.writeCerts demoLib allWritesOk
        (writerAcme.writeState demoLib .ok { fs := emptyFS }).1 resourceOne).1.fs).1.user
        = writerAcme.user ∧
    ((New ["kms.example.com"] "ops@example.com" writerAcme.workdir false).restore demoLib none
      (writerAcme.writeCerts demoLib allWritesOk
        (writerAcme.writeState demoLib .ok { fs := emptyFS }).1 resourceOne).1.fs).1.certs.get
        "certificate" = resourceOne.certificate ∧
    ((New ["kms.example.com"] "ops@example.com" writerAcme.workdir false).restore demoLib none
      (writerAcme.writeCerts demoLib allWritesOk
        (writerAcme.writeState demoLib .ok { fs := emptyFS }).1 resourceOne).1.fs).1.certs.get
        "privatekey" = resourceOne.privateKey :=
  have h := restore_after_persist demoLib none writerAcme { fs := emptyFS } .ok allWritesOk
    resourceOne ⟨5⟩ ["kms.example.com"] "ops@example.com" false rfl rfl
    (fun der hd => by cases hd; rfl)
    (fun st hm t => by cases hm; rfl)
    (by decide) (by decide)
  ⟨⟨rfl, rfl, fun der hd => by cases hd; rfl, fun st hm t => by cases hm; rfl,
    by decide, by decide⟩, h.1, h.2.2.2.2.1, h.2.2.2.2.2.1, h.2.2.2.2.2.2⟩

theorem server_receiveAll_serveLoop (lib : Lib) (srv : Server) (bs : List CertsMap) :
    (Server.serveLoop lib (bs.map .recv) srv).1 = srv.receiveAll bs := by
  induction bs generalizing srv with
  | nil => rfl
  | cons b rest ih => simp only [List.map_cons, Server.serveLoop, Server.receiveAll]; exact ih _

theorem server_getCertsConcurrent_quiet (lib : Lib) (srv : Server) (certFirst : Bool)
    (before : List CertsMap) :
    srv.getCertsConcurrent lib certFirst before [] = (srv.receiveAll before).getCerts lib := by
  unfold Server.getCertsConcurrent Server.getCertsReads Server.getCerts
  cases certFirst <;> simp [Server.receiveAll]

/-- C12 (fails on the code): the server holds the bundle of a first issuance; a
`getCerts` call reads `srv.certs["certificate"]`, the loop of `Server.Serve`
then assigns the bundle of a second issuance, and the call reads
`srv.certs["privatekey"]`.  The call hands `tls.X509KeyPair` the chain of the
first bundle with the key of the second, a pair that is the pair of no bundle
held or received, and returns an error although each bundle parses on its
own.  With the two reads in the other order the pair is the chain of the second
bundle with the key of the first. -/
theorem getCerts_pairs_chain_with_next_key :
    (({ demoServer with certs := bundleOf resourceOne } : Server).getCerts demoLib).toOption
      = some { chain := [[20, 21]], privateKey := [20, 22], leaf := some [20, 21] } ∧
    (({ demoServer with certs := bundleOf resourceTwo } : Server).getCerts demoLib).toOption
      = some { chain := [[30, 31]], privateKey := [30, 32], leaf := some [30, 31] } ∧
    demoServer.getCertsReads true [bundleOf resourceOne] [bundleOf resourceTwo]
      = (resourceOne.certificate, resourceTwo.privateKey) ∧
    isBundleOf (demoServer.getCertsReads true [bundleOf resourceOne] [bundleOf resourceTwo])
      demoServer.certs = false ∧
    isBundleOf (demoServer.getCertsReads true [bundleOf resourceOne] [bundleOf resourceTwo])
      (bundleOf resourceOne) = false ∧
    isBundleOf (demoServer.getCertsReads true [bundleOf resourceOne] [bundleOf resourceTwo])
      (bundleOf resourceTwo) = false ∧
    (demoServer.getCertsConcurrent demoLib true [bundleOf resourceOne]
      [bundleOf resourceTwo]).toOption = none ∧
    demoServer.getCertsReads false [bundleOf resourceOne] [bundleOf resourceTwo]
      = (resourceTwo.certificate, resourceOne.privateKey) ∧
    (demoServer.getCertsConcurrent demoLib false [bundleOf resourceOne]
      [bundleOf resourceTwo]).toOption = none := by
  decide


theorem server_receiveAll_certs_mem (srv : Server) (bs : List CertsMap) :
    (srv.receiveAll bs).certs ∈ srv.certs :: bs := by
  induction bs generalizing srv with
  | nil => simp [Server.receiveAll]
  | cons b rest ih =>
    have h := ih { srv with certs := b }
    simp only [Server.receiveAll]
    simp only [List.mem_cons] at h ⊢
    rcases h with h | h
    · exact Or.inr (Or.inl h)
    · exact Or.inr (Or.inr h)

theorem server_receiveAll_append (srv : Server) (bs cs : List CertsMap) :
    srv.receiveAll (bs ++ cs) = (srv.receiveAll bs).receiveAll cs := by
  induction bs generalizing srv with
  | nil => rfl
  | cons b rest ih => simp only [List.cons_append, Server.receiveAll]; exact ih _

/-- Each of the two reads of a `getCerts` call that runs while the loop is
receiving returns the entry of one whole map: the map held at start or one of
the maps received. -/
theorem server_getCertsReads_whole (srv : Server) (certFirst : Bool)
    (before between : List CertsMap) :
    ∃ m1 m2, m1 ∈ srv.certs :: (before ++ between) ∧ m2 ∈ srv.certs :: (before ++ between) ∧
      srv.getCertsReads certFirst before between
        = (m1.get "certificate", m2.get "privatekey") := by
  have h1 : (srv.receiveAll before).certs ∈ srv.certs :: (before ++ between) := by
    have := server_receiveAll_certs_mem srv before
    simp only [List.mem_cons, List.mem_append] at this ⊢
    rcases this with h | h
    · exact Or.inl h
    · exact Or.inr (Or.inl h)
  have h2 : ((srv.receiveAll before).receiveAll between).certs
      ∈ srv.certs :: (before ++ between) := by
    rw [← server_receiveAll_append]
    exact server_receiveAll_certs_mem srv (before ++ between)
  unfold Server.getCertsReads
  cases certFirst
  · exact ⟨_, _, h2, h1, by simp⟩
  · exact ⟨_, _, h1, h2, by simp⟩

end TalosKmsProxy
